import Mathlib

/-!
Verification development for the safepoint coordination subsystem and the
JVMTI raw monitor of the hotspot runtime slice.

The definitions below are a shallow embedding of the C++ sources:
- src/hotspot/share/prims/jvmtiRawMonitor.cpp (raw monitor)
- src/hotspot/share/runtime/safepoint.cpp (safepoint protocol)

Threads are identified by natural numbers. The queue node (QNode) of the
raw monitor carries only the identity of its thread here: a node's park
event belongs to its thread, so waking a node is waking its thread.
-/

/-! ## Raw monitor (jvmtiRawMonitor.cpp) -/

abbrev Thread := Nat

/-- Return codes of the raw monitor operations (M_OK, M_ILLEGAL_MONITOR_STATE,
M_INTERRUPTED in jvmtiRawMonitor.hpp). -/
inductive MCode
  | M_OK
  | M_ILLEGAL_MONITOR_STATE
  | M_INTERRUPTED
deriving DecidableEq, Repr

/-- State of one JvmtiRawMonitor: _owner, _recursions, _entry_list, _wait_set,
_waiters. The lists hold the threads of the queued QNodes, head first, so the
head of entry_list is the most recently pushed node. -/
structure RawMonitor where
  owner : Option Thread
  recursions : Int
  entry_list : List Thread
  wait_set : List Thread
  waiters : Int
deriving DecidableEq, Repr

/-- JvmtiRawMonitor::simple_enter. The cas Atomic::replace_if_null succeeds
exactly when the owner is NULL; in the sequential projection an unowned
monitor is acquired, otherwise the caller pushes its node onto the head of
_entry_list (node._next = _entry_list; _entry_list = node) and parks. -/
def simple_enter (self : Thread) (m : RawMonitor) : RawMonitor :=
  if m.owner = none then { m with owner := some self }
  else { m with entry_list := self :: m.entry_list }

/-- JvmtiRawMonitor::simple_exit: release-store NULL to _owner, then pop the
head of _entry_list, set its node state to TS_RUN and unpark it. Returns the
new monitor state and the woken contender, if any. -/
def simple_exit (m : RawMonitor) : RawMonitor × Option Thread :=
  match m.entry_list with
  | [] => ({ m with owner := none }, none)
  | w :: rest => ({ m with owner := none, entry_list := rest }, some w)

/-- JvmtiRawMonitor::enqueue_waiter: push the caller's node onto _wait_set. -/
def enqueue_waiter (self : Thread) (m : RawMonitor) : RawMonitor :=
  { m with wait_set := self :: m.wait_set }

/-- JvmtiRawMonitor::dequeue_waiter: if the caller's node still resides on
_wait_set (state TS_WAIT), unlink it. -/
def dequeue_waiter (self : Thread) (m : RawMonitor) : RawMonitor :=
  { m with wait_set := m.wait_set.erase self }

/-- JvmtiRawMonitor::simple_wait, with the park and the two interrupt checks
abstracted by the boolean outcome interrupted, and external suspension absent:
enqueue the caller on _wait_set, release the monitor via simple_exit, park
(returning M_INTERRUPTED when interrupted), dequeue from _wait_set, and
re-acquire via simple_enter. Also returns the contender woken by the internal
simple_exit, if any. -/
def simple_wait (self : Thread) (interrupted : Bool) (m : RawMonitor) :
    MCode × RawMonitor × Option Thread :=
  let m1 := enqueue_waiter self m
  let p := simple_exit m1
  let ret := if interrupted then MCode.M_INTERRUPTED else MCode.M_OK
  let m2 := dequeue_waiter self p.1
  let m3 := simple_enter self m2
  (ret, m3, p.2)

/-- JvmtiRawMonitor::raw_enter, sequential projection with no external
suspension: cmpxchg on _owner; previous owner == self increments _recursions,
previous owner == NULL acquires, otherwise the contended simple_enter path. -/
def raw_enter (self : Thread) (m : RawMonitor) : RawMonitor :=
  if m.owner = some self then { m with recursions := m.recursions + 1 }
  else if m.owner = none then { m with owner := some self }
  else simple_enter self m

/-- JvmtiRawMonitor::raw_exit: non-owner gets M_ILLEGAL_MONITOR_STATE with no
effect; a positive recursion count is decremented; otherwise simple_exit
releases the monitor and wakes the head of the entry list. -/
def raw_exit (self : Thread) (m : RawMonitor) : MCode × RawMonitor × Option Thread :=
  if m.owner ≠ some self then (MCode.M_ILLEGAL_MONITOR_STATE, m, none)
  else if m.recursions > 0 then (MCode.M_OK, { m with recursions := m.recursions - 1 }, none)
  else
    let p := simple_exit m
    (MCode.M_OK, p.1, p.2)

/-- JvmtiRawMonitor::raw_wait, sequential projection with no external
suspension: non-owner gets M_ILLEGAL_MONITOR_STATE with no effect; otherwise
save and zero _recursions, increment _waiters, run simple_wait, restore
_recursions and decrement _waiters. -/
def raw_wait (self : Thread) (interrupted : Bool) (m : RawMonitor) :
    MCode × RawMonitor × Option Thread :=
  if m.owner ≠ some self then (MCode.M_ILLEGAL_MONITOR_STATE, m, none)
  else
    let save := m.recursions
    let m1 := { m with recursions := 0, waiters := m.waiters + 1 }
    let p := simple_wait self interrupted m1
    (p.1, { p.2.1 with recursions := save, waiters := p.2.1.waiters - 1 }, p.2.2)

/-- JvmtiRawMonitor::simple_notify: pop nodes from the head of _wait_set, set
them TS_RUN and unpark them; one node, or every node when all is set. Returns
the new monitor state and the woken threads in wake order. -/
def simple_notify (all : Bool) (m : RawMonitor) : RawMonitor × List Thread :=
  if all then ({ m with wait_set := [] }, m.wait_set)
  else
    match m.wait_set with
    | [] => (m, [])
    | w :: rest => ({ m with wait_set := rest }, [w])

/-- JvmtiRawMonitor::raw_notify: non-owner gets M_ILLEGAL_MONITOR_STATE with
no effect; otherwise simple_notify of one waiter. -/
def raw_notify (self : Thread) (m : RawMonitor) : MCode × RawMonitor × List Thread :=
  if m.owner ≠ some self then (MCode.M_ILLEGAL_MONITOR_STATE, m, [])
  else
    let p := simple_notify false m
    (MCode.M_OK, p.1, p.2)

/-- JvmtiRawMonitor::raw_notifyAll: non-owner gets M_ILLEGAL_MONITOR_STATE
with no effect; otherwise simple_notify of every waiter. -/
def raw_notifyAll (self : Thread) (m : RawMonitor) : MCode × RawMonitor × List Thread :=
  if m.owner ≠ some self then (MCode.M_ILLEGAL_MONITOR_STATE, m, [])
  else
    let p := simple_notify true m
    (MCode.M_OK, p.1, p.2)

/-- Iterated raw_enter by one thread. -/
def raw_enterN (self : Thread) : Nat → RawMonitor → RawMonitor
  | 0, m => m
  | k + 1, m => raw_enterN self k (raw_enter self m)

/-- Monitor state after one raw_exit, discarding code and wakeup. -/
def raw_exit_state (self : Thread) (m : RawMonitor) : RawMonitor :=
  (raw_exit self m).2.1

/-- Iterated raw_exit by one thread. -/
def raw_exitN (self : Thread) : Nat → RawMonitor → RawMonitor
  | 0, m => m
  | j + 1, m => raw_exitN self j (raw_exit_state self m)

/-! ### Raw monitor lemmas -/

theorem simple_exit_wakes (m : RawMonitor) : (simple_exit m).2 = m.entry_list.head? := by
  cases h : m.entry_list <;> simp [simple_exit, h]

theorem simple_exit_fields (m : RawMonitor) :
    (simple_exit m).1.owner = none ∧
    (simple_exit m).1.recursions = m.recursions ∧
    (simple_exit m).1.wait_set = m.wait_set ∧
    (simple_exit m).1.entry_list = m.entry_list.tail := by
  cases h : m.entry_list <;> simp [simple_exit, h]

theorem raw_enterN_owned (self : Thread) :
    ∀ (n : Nat) (m : RawMonitor), m.owner = some self →
      raw_enterN self n m = { m with recursions := m.recursions + n }
  | 0, m, _ => by simp [raw_enterN]
  | n + 1, m, h => by
    have h1 : raw_enter self m = { m with recursions := m.recursions + 1 } := by
      simp [raw_enter, h]
    rw [raw_enterN, h1, raw_enterN_owned self n _ (by simp [h])]
    congr 1
    push_cast
    ring

theorem raw_enterN_from_unowned (self : Thread) (k : Nat) (m : RawMonitor)
    (hk : 1 ≤ k) (howner : m.owner = none) (hrec : m.recursions = 0) :
    raw_enterN self k m = { m with owner := some self, recursions := (k : Int) - 1 } := by
  obtain ⟨n, rfl⟩ : ∃ n, k = n + 1 := ⟨k - 1, by omega⟩
  have h1 : raw_enter self m = { m with owner := some self } := by
    simp [raw_enter, howner]
  rw [raw_enterN, h1, raw_enterN_owned self n _ (by simp)]
  congr 1
  rw [hrec]
  push_cast
  ring

theorem raw_exitN_under_recursion (self : Thread) :
    ∀ (j : Nat) (m : RawMonitor), m.owner = some self → (j : Int) ≤ m.recursions →
      raw_exitN self j m = { m with recursions := m.recursions - j }
  | 0, m, _, _ => by simp [raw_exitN]
  | j + 1, m, h, hj => by
    have hpos : m.recursions > 0 := by push_cast at hj; omega
    have h1 : raw_exit_state self m = { m with recursions := m.recursions - 1 } := by
      simp [raw_exit_state, raw_exit, h, hpos]
    rw [raw_exitN, h1,
      raw_exitN_under_recursion self j _ (by simp [h]) (by push_cast at hj ⊢; omega)]
    congr 1
    push_cast
    ring

theorem raw_exitN_add (self : Thread) :
    ∀ (a b : Nat) (m : RawMonitor),
      raw_exitN self (a + b) m = raw_exitN self b (raw_exitN self a m)
  | 0, b, m => by simp [raw_exitN, Nat.zero_add]
  | a + 1, b, m => by
    have h : a + 1 + b = (a + b) + 1 := by omega
    rw [h, raw_exitN, raw_exitN, raw_exitN_add self a b]

theorem raw_exit_last (self : Thread) (m : RawMonitor)
    (h : m.owner = some self) (hrec : m.recursions = 0) :
    (raw_exit_state self m).owner = none ∧ (raw_exit_state self m).recursions = 0 := by
  have hnot : ¬ m.recursions > 0 := by omega
  cases hl : m.entry_list <;>
    simp [raw_exit_state, raw_exit, h, hnot, simple_exit, hl, hrec]

/-! ### Claim theorems for the raw monitor -/

/-- C3 counterexample: with owner 7 holding the monitor, contender 1 enqueues
first and contender 2 second; the entry list is then [2, 1] with earliest
enqueued node 1 still on it, yet simple_exit wakes node 2, not node 1 — the
entry queue is not drained in enqueue (FIFO) order. -/
theorem C3_entry_queue_counterexample :
    (simple_enter 2 (simple_enter 1 ⟨some 7, 0, [], [], 0⟩)).entry_list = [2, 1] ∧
    (simple_enter 2 (simple_enter 1 ⟨some 7, 0, [], [], 0⟩)).entry_list.getLast? = some 1 ∧
    (simple_exit (simple_enter 2 (simple_enter 1 ⟨some 7, 0, [], [], 0⟩))).2 = some 2 ∧
    (2 : Thread) ≠ 1 := by decide

theorem foldl_simple_enter (o : Thread) :
    ∀ (contenders : List Thread) (m : RawMonitor), m.owner = some o →
      (contenders.foldl (fun acc t => simple_enter t acc) m).owner = some o ∧
      (contenders.foldl (fun acc t => simple_enter t acc) m).entry_list =
        contenders.reverse ++ m.entry_list
  | [], m, h => by simp [h]
  | t :: ts, m, h => by
    have h1 : simple_enter t m = { m with entry_list := t :: m.entry_list } := by
      simp [simple_enter, h]
    rw [List.foldl_cons, h1]
    obtain ⟨ho, he⟩ := foldl_simple_enter o ts { m with entry_list := t :: m.entry_list }
      (by simp [h])
    refine ⟨ho, ?_⟩
    rw [he]
    simp

/-- Wake order of a full drain: the released owner's simple_exit pops and
wakes the head of the entry list, and the woken contender's retried cas in
simple_enter acquires the now unowned monitor before the next release. -/
def drain_entry_list : Nat → RawMonitor → List Thread
  | 0, _ => []
  | n + 1, m =>
    match simple_exit m with
    | (_, none) => []
    | (m1, some w) => w :: drain_entry_list n { m1 with owner := some w }

theorem drain_entry_list_spec :
    ∀ (l : List Thread) (m : RawMonitor), m.entry_list = l →
      drain_entry_list l.length m = l
  | [], _, _ => by simp [drain_entry_list]
  | w :: rest, m, h => by
    rw [List.length_cons, drain_entry_list]
    have hse : simple_exit m = ({ m with owner := none, entry_list := rest }, some w) := by
      simp [simple_exit, h]
    rw [hse]
    simp only
    rw [drain_entry_list_spec rest _ (by simp)]

/-- C3 (amended): the raw-monitor entry queue is a stack, drained in reverse
enqueue order (LIFO): after contenders enqueue in list order onto a held
monitor, the entry list is their reverse, each simple_exit wakes the most
recently enqueued node still on the list (the head), and a full drain wakes
the contenders in reverse enqueue order. -/
theorem C3_entry_queue_lifo (contenders : List Thread) (o : Thread) (m : RawMonitor)
    (howner : m.owner = some o) (hentry : m.entry_list = []) :
    (contenders.foldl (fun acc t => simple_enter t acc) m).entry_list =
      contenders.reverse ∧
    (simple_exit (contenders.foldl (fun acc t => simple_enter t acc) m)).2 =
      contenders.reverse.head? ∧
    drain_entry_list contenders.length
      (contenders.foldl (fun acc t => simple_enter t acc) m) = contenders.reverse := by
  obtain ⟨ho, he⟩ := foldl_simple_enter o contenders m howner
  rw [hentry, List.append_nil] at he
  refine ⟨he, ?_, ?_⟩
  · rw [simple_exit_wakes, he]
  · have := drain_entry_list_spec contenders.reverse _ he
    rwa [List.length_reverse] at this

/-- C3 witness: contenders 1 then 2 enqueue on a monitor held by 7; the drain
wakes them in reverse order [2, 1]. -/
theorem C3_entry_queue_lifo_witness :
    (⟨some 7, 0, [], [], 0⟩ : RawMonitor).owner = some 7 ∧
    drain_entry_list 2
      ([1, 2].foldl (fun acc t => simple_enter t acc) ⟨some 7, 0, [], [], 0⟩) = [2, 1] :=
  ⟨rfl, (C3_entry_queue_lifo [1, 2] 7 ⟨some 7, 0, [], [], 0⟩ rfl rfl).2.2⟩

/-- C4: recursion parity of the raw monitor. Starting from an unowned monitor
with zero recursions, after thread self performs raw_enter k times (k >= 1)
followed by raw_exit j times: for every j < k the owner is still self with
recursions k - 1 - j, and on the k-th exit the owner transitions to none
(its value before the sequence) exactly once, with recursions back to 0. -/
theorem C4_monitor_recursion_parity (self : Thread) (m : RawMonitor) (k : Nat)
    (hk : 1 ≤ k) (howner : m.owner = none) (hrec : m.recursions = 0) :
    (∀ j : Nat, j < k →
      (raw_exitN self j (raw_enterN self k m)).owner = some self ∧
      (raw_exitN self j (raw_enterN self k m)).recursions = (k : Int) - 1 - (j : Int)) ∧
    (raw_exitN self k (raw_enterN self k m)).owner = m.owner ∧
    (raw_exitN self k (raw_enterN self k m)).recursions = 0 := by
  have hent := raw_enterN_from_unowned self k m hk howner hrec
  set mk' : RawMonitor := { m with owner := some self, recursions := (k : Int) - 1 } with hmk
  have hexit : ∀ j : Nat, (j : Int) ≤ (k : Int) - 1 →
      raw_exitN self j mk' = { m with owner := some self, recursions := (k : Int) - 1 - (j : Int) } := by
    intro j hj
    exact raw_exitN_under_recursion self j mk' rfl hj
  constructor
  · intro j hj
    rw [hent, hexit j (by omega)]
    exact ⟨rfl, rfl⟩
  · obtain ⟨n, rfl⟩ : ∃ n, k = n + 1 := ⟨k - 1, by omega⟩
    rw [hent, raw_exitN_add self n 1]
    rw [hexit n (by push_cast; omega)]
    have hzero : ((n : Int) + 1) - 1 - (n : Int) = 0 := by ring
    have hlast := raw_exit_last self
      { m with owner := some self, recursions := ((n : Nat) + 1 : Nat) - 1 - (n : Int) }
      rfl (by push_cast; ring)
    rw [howner]
    constructor
    · have : raw_exitN self 1
          { m with owner := some self, recursions := ((n : Nat) + 1 : Nat) - 1 - (n : Int) } =
          raw_exit_state self
          { m with owner := some self, recursions := ((n : Nat) + 1 : Nat) - 1 - (n : Int) } := rfl
      rw [this]
      exact hlast.1
    · have : raw_exitN self 1
          { m with owner := some self, recursions := ((n : Nat) + 1 : Nat) - 1 - (n : Int) } =
          raw_exit_state self
          { m with owner := some self, recursions := ((n : Nat) + 1 : Nat) - 1 - (n : Int) } := rfl
      rw [this]
      exact hlast.2

/-- C4 witness: enter 5 times and exit 5 times on an initially unowned
monitor; after the 3rd exit the owner is thread 4 with recursions 1, and
after the 5th exit the owner is none with recursions 0. -/
theorem C4_monitor_recursion_parity_witness :
    1 ≤ 5 ∧
    (raw_exitN 4 3 (raw_enterN 4 5 ⟨none, 0, [], [], 0⟩)).owner = some 4 ∧
    (raw_exitN 4 3 (raw_enterN 4 5 ⟨none, 0, [], [], 0⟩)).recursions = (5 : Int) - 1 - 3 ∧
    (raw_exitN 4 5 (raw_enterN 4 5 ⟨none, 0, [], [], 0⟩)).owner = none ∧
    (raw_exitN 4 5 (raw_enterN 4 5 ⟨none, 0, [], [], 0⟩)).recursions = 0 := by
  have h := C4_monitor_recursion_parity 4 ⟨none, 0, [], [], 0⟩ 5 (by decide) rfl rfl
  exact ⟨by decide, (h.1 3 (by decide)).1, (h.1 3 (by decide)).2, h.2.1, h.2.2⟩

/-- C5: every raw-monitor operation that requires ownership — raw_exit,
raw_wait, raw_notify and raw_notifyAll — called by a thread that is not the
current owner returns M_ILLEGAL_MONITOR_STATE, wakes nobody, and leaves the
monitor (owner, recursions, entry queue, wait queue, waiters) unchanged. -/
theorem C5_nonowner_illegal_state (m : RawMonitor) (self : Thread)
    (h : m.owner ≠ some self) :
    raw_exit self m = (MCode.M_ILLEGAL_MONITOR_STATE, m, none) ∧
    (∀ intr : Bool, raw_wait self intr m = (MCode.M_ILLEGAL_MONITOR_STATE, m, none)) ∧
    raw_notify self m = (MCode.M_ILLEGAL_MONITOR_STATE, m, []) ∧
    raw_notifyAll self m = (MCode.M_ILLEGAL_MONITOR_STATE, m, []) := by
  refine ⟨?_, fun intr => ?_, ?_, ?_⟩ <;>
    simp [raw_exit, raw_wait, raw_notify, raw_notifyAll, h]

/-- C5 witness: thread 2 calls the four operations on a monitor owned by
thread 1; each returns M_ILLEGAL_MONITOR_STATE and the monitor is unchanged. -/
theorem C5_nonowner_illegal_state_witness :
    (⟨some 1, 0, [3], [4], 1⟩ : RawMonitor).owner ≠ some 2 ∧
    raw_exit 2 ⟨some 1, 0, [3], [4], 1⟩ =
      (MCode.M_ILLEGAL_MONITOR_STATE, ⟨some 1, 0, [3], [4], 1⟩, none) ∧
    raw_wait 2 true ⟨some 1, 0, [3], [4], 1⟩ =
      (MCode.M_ILLEGAL_MONITOR_STATE, ⟨some 1, 0, [3], [4], 1⟩, none) ∧
    raw_notify 2 ⟨some 1, 0, [3], [4], 1⟩ =
      (MCode.M_ILLEGAL_MONITOR_STATE, ⟨some 1, 0, [3], [4], 1⟩, []) ∧
    raw_notifyAll 2 ⟨some 1, 0, [3], [4], 1⟩ =
      (MCode.M_ILLEGAL_MONITOR_STATE, ⟨some 1, 0, [3], [4], 1⟩, []) := by
  have h := C5_nonowner_illegal_state ⟨some 1, 0, [3], [4], 1⟩ 2 (by decide)
  exact ⟨by decide, h.1, h.2.1 true, h.2.2.1, h.2.2.2⟩

/-- C6: interrupted raw-monitor wait. If the owner self calls raw_wait with no
contender on the entry list, then on return the caller owns the monitor again
and recursions, wait set, waiters and entry list equal their values at the
time of the call; when the wait was interrupted the returned code is
M_INTERRUPTED, otherwise M_OK. -/
theorem C6_interrupted_wait_reacquires (self : Thread) (intr : Bool) (m : RawMonitor)
    (howner : m.owner = some self) (hentry : m.entry_list = []) :
    (raw_wait self intr m).1 = (if intr then MCode.M_INTERRUPTED else MCode.M_OK) ∧
    (raw_wait self intr m).2.1.owner = some self ∧
    (raw_wait self intr m).2.1.recursions = m.recursions ∧
    (raw_wait self intr m).2.1.wait_set = m.wait_set ∧
    (raw_wait self intr m).2.1.waiters = m.waiters ∧
    (raw_wait self intr m).2.1.entry_list = m.entry_list := by
  have hne : ¬ m.owner ≠ some self := by simp [howner]
  simp [raw_wait, hne, simple_wait, enqueue_waiter, simple_exit, hentry,
    dequeue_waiter, simple_enter]

/-- C6 witness: thread 3 owning with recursions 2 calls raw_wait and is
interrupted; raw_wait returns M_INTERRUPTED, thread 3 owns the monitor again
and recursions is back to 2. -/
theorem C6_interrupted_wait_reacquires_witness :
    (⟨some 3, 2, [], [5], 1⟩ : RawMonitor).owner = some 3 ∧
    (raw_wait 3 true ⟨some 3, 2, [], [5], 1⟩).1 = MCode.M_INTERRUPTED ∧
    (raw_wait 3 true ⟨some 3, 2, [], [5], 1⟩).2.1.owner = some 3 ∧
    (raw_wait 3 true ⟨some 3, 2, [], [5], 1⟩).2.1.recursions = 2 := by
  have h := C6_interrupted_wait_reacquires 3 true ⟨some 3, 2, [], [5], 1⟩ rfl rfl
  exact ⟨rfl, h.1, h.2.1, h.2.2.1⟩

/-! ## Safepoint coordinator state machine (safepoint.cpp)

A small-step model of the stores SafepointSynchronize::begin/arm_safepoint
and SafepointSynchronize::end/disarm_safepoint perform on the globals
_safepoint_counter, _state and the wait barrier tag, in the exact program
order of the source. Worker threads never write these globals, so a state
observable while interleaving coordinator and worker steps is a state
between two coordinator micro-steps. -/

/-- SafepointSynchronize::SynchronizeState. -/
inductive SyncState
  | not_synchronized
  | synchronizing
  | synchronized
deriving DecidableEq, Repr

/-- Program points of the coordinator between its stores to the globals. -/
inductive CoordPC
  | idle
  | armed_barrier
  | counter_odd
  | sync_spin
  | in_cleanup
  | state_cleared
  | counter_even
deriving DecidableEq, Repr

/-- The coordinator-visible globals: _state, _safepoint_counter (a 64-bit
counter whose value 0 is the reserved InactiveSafepointCounter), the wait
barrier tag (0 when disarmed), and the coordinator program point. -/
structure SPState where
  state : SyncState
  safepoint_counter : Nat
  barrier_tag : Nat
  pc : CoordPC
deriving DecidableEq, Repr

/-- Initial state: _state = _not_synchronized, _safepoint_counter = 0
(InactiveSafepointCounter), barrier disarmed, coordinator outside begin. -/
def spInit : SPState := ⟨SyncState.not_synchronized, 0, 0, CoordPC.idle⟩

/-- Wait-barrier arm with tag _safepoint_counter + 1 in arm_safepoint. -/
def step_arm_barrier (s : SPState) : SPState :=
  { s with barrier_tag := s.safepoint_counter + 1, pc := CoordPC.armed_barrier }

/-- The release store _safepoint_counter := _safepoint_counter + 1 in
arm_safepoint (even to odd). -/
def step_store_counter_arm (s : SPState) : SPState :=
  { s with safepoint_counter := s.safepoint_counter + 1, pc := CoordPC.counter_odd }

/-- The store _state = _synchronizing in arm_safepoint. -/
def step_set_synchronizing (s : SPState) : SPState :=
  { s with state := SyncState.synchronizing, pc := CoordPC.sync_spin }

/-- The store _state = _synchronized in begin, after synchronize_threads. -/
def step_set_synchronized (s : SPState) : SPState :=
  { s with state := SyncState.synchronized, pc := CoordPC.in_cleanup }

/-- The store _state = _not_synchronized in disarm_safepoint. -/
def step_set_not_synchronized (s : SPState) : SPState :=
  { s with state := SyncState.not_synchronized, pc := CoordPC.state_cleared }

/-- The release store _safepoint_counter := _safepoint_counter + 1 in
disarm_safepoint (odd to even). -/
def step_store_counter_disarm (s : SPState) : SPState :=
  { s with safepoint_counter := s.safepoint_counter + 1, pc := CoordPC.counter_even }

/-- The wait-barrier disarm at the end of disarm_safepoint. -/
def step_disarm_barrier (s : SPState) : SPState :=
  { s with barrier_tag := 0, pc := CoordPC.idle }

/-- One coordinator micro-step, in the program order of begin and end. -/
inductive SPStep : SPState → SPState → Prop
  | arm_barrier (s : SPState) (h : s.pc = CoordPC.idle) :
      SPStep s (step_arm_barrier s)
  | store_counter_arm (s : SPState) (h : s.pc = CoordPC.armed_barrier) :
      SPStep s (step_store_counter_arm s)
  | set_synchronizing (s : SPState) (h : s.pc = CoordPC.counter_odd) :
      SPStep s (step_set_synchronizing s)
  | set_synchronized (s : SPState) (h : s.pc = CoordPC.sync_spin) :
      SPStep s (step_set_synchronized s)
  | set_not_synchronized (s : SPState) (h : s.pc = CoordPC.in_cleanup) :
      SPStep s (step_set_not_synchronized s)
  | store_counter_disarm (s : SPState) (h : s.pc = CoordPC.state_cleared) :
      SPStep s (step_store_counter_disarm s)
  | disarm_barrier (s : SPState) (h : s.pc = CoordPC.counter_even) :
      SPStep s (step_disarm_barrier s)

/-- Reachability from the initial state. -/
def SPReach (s : SPState) : Prop := Relation.ReflTransGen SPStep spInit s

/-- SafepointSynchronize::begin restricted to the modelled globals: arm the
barrier, bump the counter, set _synchronizing, spin until all workers are
safe, set _synchronized. -/
def safepoint_begin (s : SPState) : SPState :=
  step_set_synchronized (step_set_synchronizing (step_store_counter_arm (step_arm_barrier s)))

/-- SafepointSynchronize::end restricted to the modelled globals: clear the
state, bump the counter, disarm the barrier. -/
def safepoint_end (s : SPState) : SPState :=
  step_disarm_barrier (step_store_counter_disarm (step_set_not_synchronized s))

/-- The program-point invariant: the counter parity and the state at each
coordinator program point. -/
def spInv (s : SPState) : Prop :=
  match s.pc with
  | CoordPC.idle => s.safepoint_counter % 2 = 0 ∧ s.state = SyncState.not_synchronized
  | CoordPC.armed_barrier => s.safepoint_counter % 2 = 0 ∧ s.state = SyncState.not_synchronized
  | CoordPC.counter_odd => s.safepoint_counter % 2 = 1 ∧ s.state = SyncState.not_synchronized
  | CoordPC.sync_spin => s.safepoint_counter % 2 = 1 ∧ s.state = SyncState.synchronizing
  | CoordPC.in_cleanup => s.safepoint_counter % 2 = 1 ∧ s.state = SyncState.synchronized
  | CoordPC.state_cleared => s.safepoint_counter % 2 = 1 ∧ s.state = SyncState.not_synchronized
  | CoordPC.counter_even => s.safepoint_counter % 2 = 0 ∧ s.state = SyncState.not_synchronized

theorem spInv_init : spInv spInit := by constructor <;> rfl

theorem spInv_step (s s' : SPState) (h : spInv s) (hs : SPStep s s') : spInv s' := by
  cases hs with
  | arm_barrier hpc =>
    rw [spInv, hpc] at h
    exact ⟨h.1, h.2⟩
  | store_counter_arm hpc =>
    rw [spInv, hpc] at h
    refine ⟨?_, h.2⟩
    have h1 := h.1
    simp only [step_store_counter_arm]
    omega
  | set_synchronizing hpc =>
    rw [spInv, hpc] at h
    exact ⟨h.1, rfl⟩
  | set_synchronized hpc =>
    rw [spInv, hpc] at h
    exact ⟨h.1, rfl⟩
  | set_not_synchronized hpc =>
    rw [spInv, hpc] at h
    exact ⟨h.1, rfl⟩
  | store_counter_disarm hpc =>
    rw [spInv, hpc] at h
    refine ⟨?_, h.2⟩
    have h1 := h.1
    simp only [step_store_counter_disarm]
    omega
  | disarm_barrier hpc =>
    rw [spInv, hpc] at h
    exact ⟨h.1, h.2⟩

theorem spReach_inv (s : SPState) (h : SPReach s) : spInv s := by
  induction h with
  | refl => exact spInv_init
  | tail _ hstep ih => exact spInv_step _ _ ih hstep

/-- C1 counterexample: the state reached after the two first stores of
arm_safepoint — barrier armed with tag 1 and the release store making
_safepoint_counter = 1 — but before the store _state = _synchronizing, is
observable (a worker can read both globals between the two coordinator
stores); there G is odd while S is _not_synchronized, so the claimed
biconditional fails at that instant. -/
theorem C1_parity_counterexample :
    SPReach ⟨SyncState.not_synchronized, 1, 1, CoordPC.counter_odd⟩ ∧
    (⟨SyncState.not_synchronized, 1, 1, CoordPC.counter_odd⟩ : SPState).safepoint_counter % 2
      = 1 ∧
    (⟨SyncState.not_synchronized, 1, 1, CoordPC.counter_odd⟩ : SPState).state =
      SyncState.not_synchronized := by
  refine ⟨?_, rfl, rfl⟩
  have h1 : SPStep spInit (step_arm_barrier spInit) := SPStep.arm_barrier spInit rfl
  have h2 : SPStep (step_arm_barrier spInit)
      (step_store_counter_arm (step_arm_barrier spInit)) :=
    SPStep.store_counter_arm _ rfl
  have he : step_store_counter_arm (step_arm_barrier spInit) =
      ⟨SyncState.not_synchronized, 1, 1, CoordPC.counter_odd⟩ := rfl
  exact he ▸ Relation.ReflTransGen.head h1 (Relation.ReflTransGen.single h2)

/-- C1 (amended): in every reachable state, S = _synchronizing or
S = _synchronized implies G odd; and at every reachable state where the
coordinator is not between the counter store and the state store of
arm_safepoint, nor between the state store and the counter store of
disarm_safepoint, the full biconditional holds: G is odd exactly when S is
_synchronizing or _synchronized. -/
theorem C1_parity_invariant (s : SPState) (h : SPReach s) :
    ((s.state = SyncState.synchronizing ∨ s.state = SyncState.synchronized) →
      s.safepoint_counter % 2 = 1) ∧
    (s.pc ≠ CoordPC.counter_odd → s.pc ≠ CoordPC.state_cleared →
      (s.safepoint_counter % 2 = 1 ↔
        (s.state = SyncState.synchronizing ∨ s.state = SyncState.synchronized))) := by
  have hi := spReach_inv s h
  rcases s with ⟨st, c, b, pc⟩
  cases pc <;> simp only [spInv] at hi <;> obtain ⟨h1, h2⟩ := hi <;> subst h2 <;>
    refine ⟨?_, ?_⟩ <;> simp <;> omega

/-- C1 witness: the amended invariant instantiated at the initial state,
which is reachable by the empty run. -/
theorem C1_parity_invariant_witness :
    SPReach spInit ∧
    (spInit.safepoint_counter % 2 = 1 ↔
      (spInit.state = SyncState.synchronizing ∨ spInit.state = SyncState.synchronized)) :=
  ⟨Relation.ReflTransGen.refl,
   (C1_parity_invariant spInit Relation.ReflTransGen.refl).2 (by decide) (by decide)⟩

/-- C8: generation counter stepping. Along any coordinator step from a
reachable state the counter never decreases; it changes only at the single
release store of arm_safepoint, which takes it from even to odd, or the
single release store of disarm_safepoint, which takes it from odd to even;
and a full begin followed by end takes the counter from c to c + 1 to
c + 2. -/
theorem C8_generation_stepping (s s' : SPState) (hs : SPReach s) (hstep : SPStep s s') :
    s.safepoint_counter ≤ s'.safepoint_counter ∧
    (s'.safepoint_counter = s.safepoint_counter ∨
      (s'.safepoint_counter = s.safepoint_counter + 1 ∧
        ((s.pc = CoordPC.armed_barrier ∧ s.safepoint_counter % 2 = 0 ∧
            s'.safepoint_counter % 2 = 1) ∨
         (s.pc = CoordPC.state_cleared ∧ s.safepoint_counter % 2 = 1 ∧
            s'.safepoint_counter % 2 = 0)))) ∧
    (safepoint_begin s).safepoint_counter = s.safepoint_counter + 1 ∧
    (safepoint_end (safepoint_begin s)).safepoint_counter = s.safepoint_counter + 2 := by
  have hi := spReach_inv s hs
  refine ⟨?_, ?_, rfl, rfl⟩ <;>
    cases hstep with
    | arm_barrier hpc => simp [step_arm_barrier]
    | store_counter_arm hpc =>
      rw [spInv, hpc] at hi
      simp [step_store_counter_arm, hpc] <;> omega
    | set_synchronizing hpc => simp [step_set_synchronizing]
    | set_synchronized hpc => simp [step_set_synchronized]
    | set_not_synchronized hpc => simp [step_set_not_synchronized]
    | store_counter_disarm hpc =>
      rw [spInv, hpc] at hi
      simp [step_store_counter_disarm, hpc] <;> omega
    | disarm_barrier hpc => simp [step_disarm_barrier]

/-- C8 witness: from the reachable state with the barrier just armed, the
counter store of arm_safepoint takes the counter from 0 to 1, and a full
begin/end cycle from the initial state takes it from 0 to 1 to 2. -/
theorem C8_generation_stepping_witness :
    SPReach (step_arm_barrier spInit) ∧
    (safepoint_begin (step_arm_barrier spInit)).safepoint_counter =
      (step_arm_barrier spInit).safepoint_counter + 1 ∧
    (safepoint_end (safepoint_begin (step_arm_barrier spInit))).safepoint_counter =
      (step_arm_barrier spInit).safepoint_counter + 2 := by
  have hreach : SPReach (step_arm_barrier spInit) :=
    Relation.ReflTransGen.single (SPStep.arm_barrier spInit rfl)
  have h := C8_generation_stepping (step_arm_barrier spInit)
    (step_store_counter_arm (step_arm_barrier spInit)) hreach
    (SPStep.store_counter_arm _ rfl)
  exact ⟨hreach, h.2.2.1, h.2.2.2⟩

/-! ## Worker block protocol (SafepointSynchronize::block) -/

/-- JavaThreadState values block switches on; the five transition states take
the blocking path, every other state hits the fatal default branch. -/
inductive JavaThreadState
  | thread_in_vm_trans
  | thread_in_Java
  | thread_in_native_trans
  | thread_blocked_trans
  | thread_new_trans
  | thread_blocked
  | thread_in_vm
  | thread_in_native
  | thread_new
deriving DecidableEq, Repr

/-- The states of the switch in SafepointSynchronize::block that reach the
blocking path. -/
def is_block_trans_state : JavaThreadState → Bool
  | JavaThreadState.thread_in_vm_trans => true
  | JavaThreadState.thread_in_Java => true
  | JavaThreadState.thread_in_native_trans => true
  | JavaThreadState.thread_blocked_trans => true
  | JavaThreadState.thread_new_trans => true
  | _ => false

/-- The inputs SafepointSynchronize::block reads: whether the calling thread
is terminated, whether the VM has exited (consulted by block_if_vm_exited),
the thread state, the value of _safepoint_counter it loads, and the current
wait-barrier tag (0 when disarmed). -/
structure BlockEnv where
  terminated : Bool
  vm_exited : Bool
  thread_state : JavaThreadState
  safepoint_counter : Nat
  barrier_tag : Nat
deriving DecidableEq, Repr

/-- Observable actions of one SafepointSynchronize::block call, in program
order. -/
inductive BlockEvent
  | block_if_vm_exited (parks_forever : Bool)
  | set_safepoint_id (g : Nat)
  | set_thread_state (st : JavaThreadState)
  | barrier_wait (tag : Nat) (parked : Bool)
  | reset_safepoint_id
  | fatal_illegal_state
deriving DecidableEq, Repr

/-- SafepointSynchronize::block as its trace of observable actions. A
terminated thread calls block_if_vm_exited (which parks forever only when
the VM has exited) and returns. Otherwise the loaded counter is written as
the thread safepoint id, the state is set to _thread_blocked, the thread
waits on the barrier with the loaded counter as tag, the original state is
restored and the safepoint id reset. The barrier wait parks exactly when the
barrier is currently armed with that tag (WaitBarrier is outside this slice;
its stale-tag early return is modelled from the spec: a worker waits for a
specific tag and only blocks if the armed tag equals it). -/
def SafepointSynchronize_block (env : BlockEnv) : List BlockEvent :=
  if env.terminated then [BlockEvent.block_if_vm_exited env.vm_exited]
  else
    let g := env.safepoint_counter
    if is_block_trans_state env.thread_state then
      [BlockEvent.set_safepoint_id g,
       BlockEvent.set_thread_state JavaThreadState.thread_blocked,
       BlockEvent.barrier_wait g (decide (env.barrier_tag = g)),
       BlockEvent.set_thread_state env.thread_state,
       BlockEvent.reset_safepoint_id]
    else [BlockEvent.fatal_illegal_state]

/-- C2 counterexample: a live thread in _thread_in_Java reaches block with an
even (stale) counter value 2 and a disarmed barrier; block does not return
immediately: it still records the observed generation 2, transitions to
_thread_blocked and calls the barrier wait (which returns without parking),
contradicting the claim that for non-odd g the call returns with none of
this happening. -/
theorem C2_block_counterexample :
    (⟨false, false, JavaThreadState.thread_in_Java, 2, 0⟩ : BlockEnv).safepoint_counter % 2
      = 0 ∧
    SafepointSynchronize_block ⟨false, false, JavaThreadState.thread_in_Java, 2, 0⟩ =
      [BlockEvent.set_safepoint_id 2,
       BlockEvent.set_thread_state JavaThreadState.thread_blocked,
       BlockEvent.barrier_wait 2 false,
       BlockEvent.set_thread_state JavaThreadState.thread_in_Java,
       BlockEvent.reset_safepoint_id] ∧
    BlockEvent.set_safepoint_id 2 ∈
      SafepointSynchronize_block ⟨false, false, JavaThreadState.thread_in_Java, 2, 0⟩ := by
  refine ⟨rfl, rfl, ?_⟩
  decide

/-- C2 (amended): block never inspects the parity of the loaded generation g.
For every non-terminated thread in a transition state it records g as the
observed generation, transitions to _thread_blocked, and waits on the
barrier with tag g regardless of g; staleness protection lives in the
barrier wait itself, which parks exactly when the barrier is still armed
with tag g and returns immediately otherwise. -/
theorem C2_block_records_unconditionally (env : BlockEnv)
    (hterm : env.terminated = false)
    (htrans : is_block_trans_state env.thread_state = true) :
    SafepointSynchronize_block env =
      [BlockEvent.set_safepoint_id env.safepoint_counter,
       BlockEvent.set_thread_state JavaThreadState.thread_blocked,
       BlockEvent.barrier_wait env.safepoint_counter
         (decide (env.barrier_tag = env.safepoint_counter)),
       BlockEvent.set_thread_state env.thread_state,
       BlockEvent.reset_safepoint_id] := by
  simp [SafepointSynchronize_block, hterm, htrans]

/-- C2 witness: a thread in _thread_in_native_trans with odd counter 3 and
the barrier armed with tag 3 records the generation and parks. -/
theorem C2_block_records_unconditionally_witness :
    (⟨false, false, JavaThreadState.thread_in_native_trans, 3, 3⟩ : BlockEnv).terminated
      = false ∧
    SafepointSynchronize_block ⟨false, false, JavaThreadState.thread_in_native_trans, 3, 3⟩ =
      [BlockEvent.set_safepoint_id 3,
       BlockEvent.set_thread_state JavaThreadState.thread_blocked,
       BlockEvent.barrier_wait 3 true,
       BlockEvent.set_thread_state JavaThreadState.thread_in_native_trans,
       BlockEvent.reset_safepoint_id] :=
  ⟨rfl, C2_block_records_unconditionally
    ⟨false, false, JavaThreadState.thread_in_native_trans, 3, 3⟩ rfl rfl⟩

/-- C10: a thread that is already terminated when it reaches block only calls
block_if_vm_exited (which parks forever exactly when the VM has exited) and
returns: it never sets its safepoint id, never changes its thread state and
never waits on the barrier. -/
theorem C10_terminated_block_skips (env : BlockEnv) (hterm : env.terminated = true) :
    SafepointSynchronize_block env = [BlockEvent.block_if_vm_exited env.vm_exited] ∧
    (∀ g : Nat, BlockEvent.set_safepoint_id g ∉ SafepointSynchronize_block env) ∧
    (∀ st : JavaThreadState,
      BlockEvent.set_thread_state st ∉ SafepointSynchronize_block env) ∧
    (∀ (t : Nat) (b : Bool),
      BlockEvent.barrier_wait t b ∉ SafepointSynchronize_block env) := by
  have he : SafepointSynchronize_block env = [BlockEvent.block_if_vm_exited env.vm_exited] := by
    simp [SafepointSynchronize_block, hterm]
  refine ⟨he, ?_, ?_, ?_⟩ <;> intros <;> rw [he] <;> simp

/-- C10 witness: a terminated thread with the VM still running produces only
the non-parking block_if_vm_exited call. -/
theorem C10_terminated_block_skips_witness :
    (⟨true, false, JavaThreadState.thread_in_Java, 5, 5⟩ : BlockEnv).terminated = true ∧
    SafepointSynchronize_block ⟨true, false, JavaThreadState.thread_in_Java, 5, 5⟩ =
      [BlockEvent.block_if_vm_exited false] :=
  ⟨rfl, (C10_terminated_block_skips
    ⟨true, false, JavaThreadState.thread_in_Java, 5, 5⟩ rfl).1⟩

/-! ## Synchronize-loop back-off (back_off, synchronize_threads) -/

/-- NANOSECS_PER_MILLISEC. -/
def NANOSECS_PER_MILLISEC : Int := 1000000

/-- back_off in safepoint.cpp, as the nanoseconds slept: while less than one
millisecond has passed since start_time it does
os::naked_short_nanosleep(10 * (NANOUNITS / MICROUNITS)), a 10 microsecond
nanosleep, and afterwards os::naked_short_sleep(1), a 1 millisecond sleep. -/
def back_off (now start_time : Int) : Int :=
  if now - start_time < NANOSECS_PER_MILLISEC then 10 * 1000 else 1000000

/-- The do-while loop of SafepointSynchronize::synchronize_threads. Each pass
over the list of still-running threads is summarized by the oracle entry
(t, r): t is os::javaTimeNanos() when back_off would run and r the value of
still_running after the pass. After a pass with r > 0 the loop calls
back_off(start_time) and repeats; a pass with r = 0 exits. Returns the
number of do-iterations and the list of sleeps performed, or none when the
oracle is exhausted with threads still running. -/
def synchronize_loop (start_time : Int) : List (Int × Nat) → Option (Nat × List Int)
  | [] => none
  | (t, r) :: rest =>
    if r = 0 then some (1, [])
    else
      match synchronize_loop start_time rest with
      | none => none
      | some (n, ss) => some (n + 1, back_off t start_time :: ss)

/-- SafepointSynchronize::synchronize_threads after the initial pass: with no
thread still running it returns 1 iteration at once, otherwise it runs the
do-while loop, whose iteration count continues from the initial pass. -/
def synchronize_threads (start_time : Int) (initial_running : Nat)
    (passes : List (Int × Nat)) : Option (Nat × List Int) :=
  if initial_running = 0 then some (1, [])
  else
    match synchronize_loop start_time passes with
    | none => none
    | some (n, ss) => some (n + 1, ss)

/-- C9: the synchronize loop repeats until no worker is still running, and
the back-off after each pass that leaves workers running sleeps 10000 ns
(10 microseconds) while less than one millisecond has elapsed since the spin
started and 1000000 ns (1 millisecond) thereafter: whenever the loop
returns, the consumed passes are a block of passes with workers still
running followed by one pass with none, the iteration count is theirs, and
the sleeps are exactly one per still-running pass with the two-band
duration. -/
theorem C9_backoff_policy (start_time : Int) (passes : List (Int × Nat))
    (n : Nat) (sleeps : List Int)
    (h : synchronize_loop start_time passes = some (n, sleeps)) :
    ∃ (pfx : List (Int × Nat)) (t : Int) (rest : List (Int × Nat)),
      passes = pfx ++ (t, 0) :: rest ∧
      (∀ p ∈ pfx, p.2 ≠ 0) ∧
      n = pfx.length + 1 ∧
      sleeps = pfx.map (fun p => if p.1 - start_time < 1000000 then 10000 else 1000000) := by
  induction passes generalizing n sleeps with
  | nil => simp [synchronize_loop] at h
  | cons hd rest ih =>
    obtain ⟨t, r⟩ := hd
    by_cases hr : r = 0
    · subst hr
      rw [synchronize_loop] at h
      simp only [if_pos rfl, Option.some.injEq, Prod.mk.injEq] at h
      obtain ⟨rfl, rfl⟩ := h
      exact ⟨[], t, rest, by simp, by simp, by simp, by simp⟩
    · rw [synchronize_loop] at h
      rw [if_neg hr] at h
      cases hrec : synchronize_loop start_time rest with
      | none => rw [hrec] at h; exact absurd h (by simp)
      | some p =>
        obtain ⟨n', ss'⟩ := p
        rw [hrec] at h
        simp only [Option.some.injEq, Prod.mk.injEq] at h
        obtain ⟨rfl, rfl⟩ := h
        obtain ⟨pfx, t', rest', hp, hnz, hlen, hmap⟩ := ih n' ss' hrec
        refine ⟨(t, r) :: pfx, t', rest', by simp [hp], ?_,
          by simp only [List.length_cons]; omega, ?_⟩
        · intro p hpmem
          rcases List.mem_cons.1 hpmem with hh | hh
          · subst hh; exact hr
          · exact hnz p hh
        · rw [List.map_cons, ← hmap]
          norm_num [back_off, NANOSECS_PER_MILLISEC]

/-- C9 witness: three passes, the first two with workers still running; the
loop returns 3 iterations, a 10 microsecond sleep for the pass inside the
first millisecond and a 1 millisecond sleep for the later pass, and the
characterization produced by the theorem holds of them. -/
theorem C9_backoff_policy_witness :
    synchronize_loop 0 [(5, 2), (2000000, 1), (3000000, 0)] =
      some (3, [10000, 1000000]) ∧
    ∃ (pfx : List (Int × Nat)) (t : Int) (rest : List (Int × Nat)),
      [((5 : Int), (2 : Nat)), (2000000, 1), (3000000, 0)] = pfx ++ (t, 0) :: rest ∧
      (∀ p ∈ pfx, p.2 ≠ 0) ∧
      3 = pfx.length + 1 ∧
      [(10000 : Int), 1000000] =
        pfx.map (fun p => if p.1 - 0 < 1000000 then 10000 else 1000000) :=
  ⟨by decide, C9_backoff_policy 0 [(5, 2), (2000000, 1), (3000000, 0)] 3
    [10000, 1000000] (by decide)⟩

/-! ## Parallel safepoint cleanup (ParallelSPCleanupTask, do_cleanup_tasks) -/

/-- The enumerated cleanup subtasks of SafepointSynchronize, in the order
ParallelSPCleanupTask::work attempts them. -/
def SAFEPOINT_CLEANUP_DEFLATE_MONITORS : Nat := 0

def SAFEPOINT_CLEANUP_UPDATE_INLINE_CACHES : Nat := 1

def SAFEPOINT_CLEANUP_COMPILATION_POLICY : Nat := 2

def SAFEPOINT_CLEANUP_SYMBOL_TABLE_REHASH : Nat := 3

def SAFEPOINT_CLEANUP_STRING_TABLE_REHASH : Nat := 4

def SAFEPOINT_CLEANUP_CLD_PURGE : Nat := 5

def SAFEPOINT_CLEANUP_SYSTEM_DICTIONARY_RESIZE : Nat := 6

def SAFEPOINT_CLEANUP_NUM_TASKS : Nat := 7

/-- The claim attempts one ParallelSPCleanupTask::work invocation makes, in
source order: every worker tries to claim each of the seven subtasks and
runs the guarded body only when its claim succeeds. -/
def cleanup_work_order : List Nat :=
  [SAFEPOINT_CLEANUP_DEFLATE_MONITORS,
   SAFEPOINT_CLEANUP_UPDATE_INLINE_CACHES,
   SAFEPOINT_CLEANUP_COMPILATION_POLICY,
   SAFEPOINT_CLEANUP_SYMBOL_TABLE_REHASH,
   SAFEPOINT_CLEANUP_STRING_TABLE_REHASH,
   SAFEPOINT_CLEANUP_CLD_PURGE,
   SAFEPOINT_CLEANUP_SYSTEM_DICTIONARY_RESIZE]

/-- Modelled from the spec: SubTasksDone and its try_claim_task are declared
in gc/shared/workgroup.hpp, which is outside this source slice. Per the spec,
a shared structure holds a per-task claimed bit and each dispatcher worker
performs a cas on it; only the winner runs the task. -/
structure SubTasksDone where
  claimed : Nat → Bool

/-- Modelled from the spec: one cas on the per-task claimed bit. Returns
whether this caller won the claim, and the updated claim state. -/
def try_claim_task (t : Nat) (s : SubTasksDone) : Bool × SubTasksDone :=
  if s.claimed t then (false, s)
  else (true, ⟨fun i => if i = t then true else s.claimed i⟩)

/-- Run a sequence of claim attempts against the shared SubTasksDone; the
attempts list is any interleaving of the workers' cas operations (each cas
is atomic). Records each attempt with its outcome. -/
def run_claims : List Nat → SubTasksDone → List (Nat × Bool)
  | [], _ => []
  | t :: rest, s =>
    let p := try_claim_task t s
    (t, p.1) :: run_claims rest p.2

/-- Number of successful claims of task t in a recorded attempt list. -/
def successful_claims (t : Nat) : List (Nat × Bool) → Nat
  | [] => 0
  | (a, b) :: l => (if a = t ∧ b = true then 1 else 0) + successful_claims t l

theorem run_claims_success_count (t : Nat) :
    ∀ (attempts : List Nat) (s : SubTasksDone),
      successful_claims t (run_claims attempts s) =
        if s.claimed t = false ∧ t ∈ attempts then 1 else 0
  | [], s => by simp [run_claims, successful_claims]
  | a :: rest, s => by
    rw [run_claims]
    by_cases hc : s.claimed a
    · rw [try_claim_task, if_pos hc]
      simp only
      rw [successful_claims, run_claims_success_count t rest s]
      by_cases hat : a = t
      · have hct : s.claimed t = true := hat ▸ hc
        simp [hct]
      · have hmem : (t ∈ a :: rest) = (t ∈ rest) := by
          simp [List.mem_cons, Ne.symm hat]
        simp [hat, hmem]
    · rw [try_claim_task, if_neg hc]
      simp only
      rw [successful_claims,
        run_claims_success_count t rest ⟨fun i => if i = a then true else s.claimed i⟩]
      by_cases hat : a = t
      · have hct : s.claimed t = false := by
          rw [← hat]
          exact Bool.not_eq_true _ ▸ hc
        have hct2 : (fun i => if i = a then true else s.claimed i) t = true := by
          simp [hat.symm]
        simp only [SubTasksDone.claimed] at *
        simp [hat, hct, hct2]
      · have hct2 : (fun i => if i = a then true else s.claimed i) t = s.claimed t := by
          simp [Ne.symm hat]
        have hmem : (t ∈ a :: rest) = (t ∈ rest) := by
          simp [List.mem_cons, Ne.symm hat]
        simp only [SubTasksDone.claimed] at *
        simp [hat, hct2, hmem]

/-- C7: cleanup single-claim. For any number of dispatcher workers (at least
one) and any interleaving of their cas attempts in which every enumerated
cleanup subtask is attempted once per worker — as ParallelSPCleanupTask::work
does, each worker trying every subtask of cleanup_work_order — starting from
the fresh SubTasksDone of one safepoint, exactly one claim of each subtask
succeeds, so each guarded subtask body runs exactly once per safepoint
regardless of the number of workers. -/
theorem C7_cleanup_single_claim (num_workers : Nat) (attempts : List Nat)
    (hw : 1 ≤ num_workers)
    (hcount : ∀ t ∈ cleanup_work_order, attempts.count t = num_workers) :
    ∀ t ∈ cleanup_work_order,
      successful_claims t (run_claims attempts ⟨fun _ => false⟩) = 1 := by
  intro t ht
  have hmem : t ∈ attempts := by
    have hc := hcount t ht
    have hpos : 0 < attempts.count t := by omega
    exact List.count_pos_iff.mp hpos
  rw [run_claims_success_count t attempts ⟨fun _ => false⟩]
  simp [hmem]

/-- C7 witness: two workers, each attempting the seven subtasks in the order
of ParallelSPCleanupTask::work; the symbol-table rehash subtask is claimed
exactly once. -/
theorem C7_cleanup_single_claim_witness :
    1 ≤ 2 ∧
    successful_claims SAFEPOINT_CLEANUP_SYMBOL_TABLE_REHASH
      (run_claims (cleanup_work_order ++ cleanup_work_order) ⟨fun _ => false⟩) = 1 :=
  ⟨by decide,
   C7_cleanup_single_claim 2 (cleanup_work_order ++ cleanup_work_order) (by decide)
     (by decide) SAFEPOINT_CLEANUP_SYMBOL_TABLE_REHASH (by decide)⟩
